import Mathlib

/-!
Verification of the WireBot fleet reconciliation and provisioning core.

Text is modelled as `List Char` (written `Str`), so that the Python string
operations (`split`, `strip`, slicing) become structurally recursive,
kernel-computable functions.
-/

set_option linter.unusedVariables false
set_option maxRecDepth 8192

abbrev Str := List Char

/-- Python `str.split(sep)` for a one-character separator: keeps empty
fields, `''.split(sep) = ['']`. -/
def pySplit (sep : Char) : Str → List Str
  | [] => [[]]
  | c :: cs =>
    if c = sep then [] :: pySplit sep cs
    else
      match pySplit sep cs with
      | r :: rs => (c :: r) :: rs
      | [] => [[c]]

/-- Characters stripped by Python `str.strip()`. -/
def pyWS (c : Char) : Bool :=
  c = ' ' || c = '\t' || c = '\n' || c = '\r' || c = '\x0b' || c = '\x0c'

/-- Python `str.strip()`. -/
def pyStrip (s : Str) : Str :=
  ((s.dropWhile pyWS).reverse.dropWhile pyWS).reverse

/-- Digit-string value accumulator. -/
def digitsVal (ds : Str) : Nat :=
  ds.foldl (fun a c => a * 10 + (c.toNat - '0'.toNat)) 0

/-- A nonempty all-digit string parses; anything else fails. -/
def parseDigits (ds : Str) : Option Nat :=
  if ds ≠ [] ∧ ds.all Char.isDigit then some (digitsVal ds) else none

/-- Python `int(s)`: optional surrounding whitespace, optional sign,
then a nonempty digit string; `none` models the `ValueError`. -/
def pythonInt (s : Str) : Option Int :=
  match pyStrip s with
  | '+' :: ds => (parseDigits ds).map Int.ofNat
  | '-' :: ds => (parseDigits ds).map (fun n => -(Int.ofNat n))
  | ds => (parseDigits ds).map Int.ofNat

/-! ## QuotaStore: `config.py` -/

/-- One stored per-user limits record (`user_limits[str(user_id)]` in
`wirebot_config.json`); `none` models a missing dictionary key. -/
structure UserLimits where
  max_clients : Option Int
  rate_limit : Option Int
  can_backup : Option Bool
  can_view_stats : Option Bool
  can_manage_clients : Option Bool
deriving DecidableEq

/-- The relevant durable state of `Config`: owner id, authorized users,
the global `limits.*` defaults, and the stored per-user records. -/
structure Config where
  owner_id : Int
  authorized_users : List Int
  limits_max_clients : Int
  limits_rate_limit : Int
  user_limits : List (Int × UserLimits)
deriving DecidableEq

def Config.is_owner (cfg : Config) (user_id : Int) : Bool :=
  user_id == cfg.owner_id

def Config.is_authorized (cfg : Config) (user_id : Int) : Bool :=
  cfg.authorized_users.contains user_id

/-- The `default_limits` dictionary built inside `get_user_limits`. -/
def Config.default_limits (cfg : Config) : UserLimits :=
  ⟨some cfg.limits_max_clients, some cfg.limits_rate_limit,
   some true, some true, some true⟩

/-- The fixed dictionary returned for the owner in `get_user_limits`. -/
def ownerLimits : UserLimits :=
  ⟨some (-1), some (-1), some true, some true, some true⟩

def assocFind (l : List (Int × UserLimits)) (k : Int) : Option UserLimits :=
  match l.find? (fun p => p.1 == k) with
  | some p => some p.2
  | none => none

def assocSet (l : List (Int × UserLimits)) (k : Int) (v : UserLimits) :
    List (Int × UserLimits) :=
  match l with
  | [] => [(k, v)]
  | p :: ps => if p.1 == k then (k, v) :: ps else p :: assocSet ps k v

/-- `Config.get_user_limits`. -/
def Config.get_user_limits (cfg : Config) (user_id : Int) : UserLimits :=
  if cfg.is_owner user_id then ownerLimits
  else
    match assocFind cfg.user_limits user_id with
    | some l => l
    | none => cfg.default_limits

/-- `Config.set_user_limits`: a no-op for the owner. -/
def Config.set_user_limits (cfg : Config) (user_id : Int) (l : UserLimits) :
    Config :=
  if cfg.is_owner user_id then cfg
  else { cfg with user_limits := assocSet cfg.user_limits user_id l }

/-- `action_map.get(action, action)` from `can_user_perform_action`. -/
def actionKey (action : String) : String :=
  if action == "backup" then "can_backup"
  else if action == "view_stats" then "can_view_stats"
  else if action == "manage_clients" then "can_manage_clients"
  else action

/-- `limits.get(key, True)` restricted to the keys a record can hold. -/
def limitsLookup (l : UserLimits) (key : String) : Option Bool :=
  if key == "can_backup" then l.can_backup
  else if key == "can_view_stats" then l.can_view_stats
  else if key == "can_manage_clients" then l.can_manage_clients
  else none

/-- `Config.can_user_perform_action`: fails open (defaults to `true`). -/
def Config.can_user_perform_action (cfg : Config) (user_id : Int)
    (action : String) : Bool :=
  (limitsLookup (cfg.get_user_limits user_id) (actionKey action)).getD true

/-- `Config.get_user_client_count`: the source is a placeholder that
always returns 0. -/
def Config.get_user_client_count (cfg : Config) (user_id : Int) : Int := 0

/-- `Config.can_user_add_client` (`limits.get('max_clients', 100)` is the
`.getD 100`). -/
def Config.can_user_add_client (cfg : Config) (user_id : Int) : Bool :=
  if !(cfg.can_user_perform_action user_id "manage_clients") then false
  else if (cfg.get_user_limits user_id).max_clients.getD 100 == -1 then true
  else cfg.get_user_client_count user_id <
    (cfg.get_user_limits user_id).max_clients.getD 100

/-! ## StatusProbe: `WireGuardManager._get_client_status` -/

/-- The `status` dictionary built by `_get_client_status`. -/
structure ClientStatus where
  connected : Bool
  last_handshake : Option Int
  transfer : Option (Int × Int)
deriving DecidableEq

def initStatus : ClientStatus := ⟨false, none, none⟩

/-- Processing of the first dump line whose first field matches the key
(`len(parts) >= 6 and parts[0] == public_key`).  A Python exception
(`ValueError` from `int`, `IndexError` from `parts[6]` on a 6-field line)
is caught by the surrounding `except` and the partially updated `status`
is returned. -/
def applyLine (parts : List Str) : ClientStatus :=
  match (if parts.getD 4 [] ≠ "0".data then
          match pythonInt (parts.getD 4 []) with
          | some n => some (some n)
          | none => none
         else some none : Option (Option Int)) with
  | none => ⟨true, none, none⟩
  | some h =>
    if parts.length ≥ 7 then
      if parts.getD 5 [] ≠ "0".data ∨ parts.getD 6 [] ≠ "0".data then
        match pythonInt (parts.getD 5 []), pythonInt (parts.getD 6 []) with
        | some rx, some tx => ⟨true, h, some (rx, tx)⟩
        | _, _ => ⟨true, h, none⟩
      else ⟨true, h, none⟩
    else ⟨true, h, none⟩

/-- The guard `len(parts) >= 6 and parts[0] == public_key` of the dump
loop. -/
def lineHit (key line : Str) : Prop :=
  (pySplit '\t' line).length ≥ 6 ∧ (pySplit '\t' line).getD 0 [] = key

instance (key line : Str) : Decidable (lineHit key line) := by
  unfold lineHit
  infer_instance

/-- The `for line in ...` loop: the `break` means only the first matching
line contributes. -/
def statusLoop (key : Str) : List Str → ClientStatus
  | [] => initStatus
  | line :: rest =>
    if lineHit key line then applyLine (pySplit '\t' line)
    else statusLoop key rest

/-- `_get_client_status(public_key)`, parameterized by the result of
`run_command(['wg', 'show', 'wg0', 'dump'])`.  The first line of
`output.strip().split('\n')` is always dropped. -/
def getClientStatus (public_key : Str) (returncode : Int) (output : Str) :
    ClientStatus :=
  if returncode == 0 then
    statusLoop public_key ((pySplit '\n' (pyStrip output)).drop 1)
  else initStatus

/-! ## ConfigParser: the `re.findall` in `WireGuardManager.list_clients`

The source pattern (compiled with `re.DOTALL`) is

  `# BEGIN_PEER (.+?)\n\[Peer\]\nPublicKey = (.+?)\n.*?AllowedIPs = ([^\n]+)`

Because each lazy quantifier is followed by material whose success is
monotone in the remaining suffix (an occurrence of a literal inside a
suffix is an occurrence inside the whole string), backtracking never
recovers after the first viable split fails, so the backtracking search
collapses to: take the first split whose delimiter matches, then
continue.  The functions below implement exactly that. -/

def lit1 : Str := "# BEGIN_PEER ".data
def lit2 : Str := "\n[Peer]\nPublicKey = ".data
def litA : Str := "AllowedIPs = ".data
def lit12 : Str := "# BEGIN_PEER".data

/-- First decomposition `t = pre ++ pat ++ rest` (leftmost occurrence of
`pat`). -/
def searchSplit (pat : Str) : Str → Option (Str × Str)
  | [] => none
  | c :: cs =>
    if pat.isPrefixOf (c :: cs) then some ([], (c :: cs).drop pat.length)
    else
      match searchSplit pat cs with
      | some (pre, rest) => some (c :: pre, rest)
      | none => none

/-- Leftmost decomposition with a nonempty group before the delimiter:
the lazy `(.+?)` followed by the literal `pat`. -/
def splitMin1 (pat : Str) : Str → Option (Str × Str)
  | [] => none
  | c :: cs =>
    match searchSplit pat cs with
    | some (pre, rest) => some (c :: pre, rest)
    | none => none

/-- Maximal run of non-newline characters: the greedy `([^\n]+)` (the
emptiness test is done by the caller). -/
def takeRun : Str → Str × Str
  | [] => ([], [])
  | c :: cs =>
    if c = '\n' then ([], c :: cs)
    else
      match takeRun cs with
      | (r, rest) => (c :: r, rest)

/-- The lazy `.*?` followed by `AllowedIPs = ([^\n]+)`: leftmost
occurrence of the literal that is followed by at least one non-newline
character. -/
def searchAllowed : Str → Option (Str × Str)
  | [] => none
  | c :: cs =>
    if litA.isPrefixOf (c :: cs) then
      match takeRun ((c :: cs).drop litA.length) with
      | (run, rest) => if run = [] then searchAllowed cs else some (run, rest)
    else searchAllowed cs

/-- One anchored attempt of the whole pattern at the start of `s`;
returns the three capture groups and the text after the match. -/
def matchPeerAt (s : Str) : Option ((Str × Str × Str) × Str) :=
  if lit1.isPrefixOf s then
    match splitMin1 lit2 (s.drop lit1.length) with
    | none => none
    | some (name, u) =>
      match splitMin1 ['\n'] u with
      | none => none
      | some (key, v) =>
        match searchAllowed v with
        | none => none
        | some (ips, rest) => some ((name, key, ips), rest)
  else none

/-- `re.findall` of the peer pattern: fuel-indexed scan (the fuel makes
the function structurally recursive, hence kernel-computable; with fuel
at least `s.length` it is the plain leftmost non-overlapping scan). -/
def scanGo : Nat → Str → List (Str × Str × Str)
  | 0, _ => []
  | _ + 1, [] => []
  | f + 1, c :: cs =>
    match matchPeerAt (c :: cs) with
    | some (g, rest) => g :: scanGo f rest
    | none => scanGo f cs

/-- The list of `(name, publicKey, allowedIPs)` capture triples, in
order. -/
def scanPeers (s : Str) : List (Str × Str × Str) := scanGo s.length s

/-- `re.findall(r'# BEGIN_PEER', content)` length: fuel-indexed. -/
def countGo : Nat → Str → Nat
  | 0, _ => 0
  | _ + 1, [] => 0
  | f + 1, c :: cs =>
    if lit12.isPrefixOf (c :: cs) then 1 + countGo f ((c :: cs).drop lit12.length)
    else countGo f cs

/-- `client_count` in `_get_server_config`: number of (non-overlapping)
occurrences of the marker. -/
def countMarkers (s : Str) : Nat := countGo s.length s

/-! ## PeerRegistry: `WireGuardManager.list_clients` -/

/-- One entry of the list built by `list_clients`. -/
structure Client where
  name : Str
  public_key : Str
  allowed_ips : Str
  config_exists : Bool
  status : ClientStatus
deriving DecidableEq

/-- `list_clients`, parameterized by the observable world: the config
file content (`none` = missing or unreadable, both return the empty
list through `os.path.exists` / the blanket `except`), the
`find_config_file` results, and the `wg show wg0 dump` result used by
`_get_client_status` for each peer. -/
def list_clients (file : Option Str) (find_config : Str → Option Str)
    (dump_rc : Int) (dump_out : Str) : List Client :=
  match file with
  | none => []
  | some content =>
    (scanPeers content).map fun g =>
      { name := g.1, public_key := g.2.1, allowed_ips := g.2.2,
        config_exists := (find_config g.1).isSome,
        status := getClientStatus g.2.1 dump_rc dump_out }

/-! ## ProvisioningService: `WireGuardManager.add_client` and its callers -/

/-- `sanitize_client_name`: replace every character outside
`[0-9a-zA-Z_-]` with an underscore, truncate to 15. -/
def allowedNameChar (c : Char) : Bool :=
  ('0' ≤ c && c ≤ '9') || ('a' ≤ c && c ≤ 'z') || ('A' ≤ c && c ≤ 'Z') ||
    c = '_' || c = '-'

def sanitize_client_name (name : Str) : Str :=
  (name.map fun c => if allowedNameChar c then c else '_').take 15

/-- One alternative of the octet group of the IPv4 regex in
`validate_ip_address`. -/
def validOctet (s : Str) : Bool :=
  match s with
  | [a] => a.isDigit
  | [a, b] => ('1' ≤ a && a ≤ '9') && b.isDigit
  | [a, b, c] =>
    (a = '1' && b.isDigit && c.isDigit) ||
    (a = '2' && ('0' ≤ b && b ≤ '4') && c.isDigit) ||
    (a = '2' && b = '5' && ('0' ≤ c && c ≤ '5'))
  | _ => false

/-- `validate_ip_address`: `re.match` of the anchored octet pattern; the
`$` anchor also matches just before one trailing newline. -/
def validate_ip_address (ip : Str) : Bool :=
  let t := if ip.getLast? = some '\n' then ip.dropLast else ip
  match pySplit '.' t with
  | [a, b, c, d] => validOctet a && validOctet b && validOctet c && validOctet d
  | _ => false

/-- The distinct return sites of `add_client`; `created` is the only one
whose success flag (first tuple component in the source) is `True`. -/
inductive AddResult where
  | invalidName
  | alreadyExists (name : Str)
  | invalidDns
  | failedCreate (detail : Str)
  | createdNoConfigFile
  | created (name : Str) (path : Str)
deriving DecidableEq

/-- The `success` boolean of the returned tuple. -/
def AddResult.success : AddResult → Bool
  | .created _ _ => true
  | _ => false

/-- `stderr or stdout or "Unknown error occurred"`. -/
def errDetail (stderr stdout : Str) : Str :=
  if stderr ≠ [] then stderr
  else if stdout ≠ [] then stdout
  else "Unknown error occurred".data

/-- The observable world an `add_client` call runs against: the config
file at the existence check, whether the provisioning script exists, the
`find_config_file` search results, the status dump, and the external
tool's exit data. -/
structure AddWorld where
  wg_conf : Option Str
  script_exists : Bool
  find_config : Str → Option Str
  dump_rc : Int
  dump_out : Str
  tool_rc : Int
  tool_stdout : Str
  tool_stderr : Str

/-- `add_client(client_name, dns_servers)`: returns the result and the
number of external-tool invocations performed (0 or 1).  Note that after
a zero exit code the code consults only `find_config_file`; it never
re-parses the config file. -/
def add_client (w : AddWorld) (client_name dns_servers : Str) :
    AddResult × Nat :=
  if sanitize_client_name client_name = [] then (.invalidName, 0)
  else if (list_clients w.wg_conf w.find_config w.dump_rc w.dump_out).any
      (fun c => c.name = sanitize_client_name client_name) then
    (.alreadyExists (sanitize_client_name client_name), 0)
  else if !(((pySplit ',' dns_servers).map pyStrip).all validate_ip_address) then
    (.invalidDns, 0)
  else if w.tool_rc ≠ 0 then
    (.failedCreate (errDetail w.tool_stderr w.tool_stdout), 1)
  else
    match w.find_config (sanitize_client_name client_name) with
    | none => (.createdNoConfigFile, 1)
    | some p => (.created (sanitize_client_name client_name) p, 1)

/-- `WireGuardManager.is_installed`. -/
def is_installed (w : AddWorld) : Bool :=
  w.wg_conf.isSome && w.script_exists

/-- The gates an AddClient request passes through before `add_client`. -/
inductive RequestOutcome where
  | denied
  | notInstalled
  | handled (r : AddResult) (toolCalls : Nat)
deriving DecidableEq

/-- The full AddClient pipeline of `main.py` (`add_client_start` →
`create_client`): an authorization check and an installation check are
the only gates before `wg_manager.add_client`; no quota check occurs
anywhere on the path. -/
def addClientRequest (cfg : Config) (w : AddWorld) (operator : Int)
    (client_name dns_servers : Str) : RequestOutcome :=
  if !(cfg.is_authorized operator) then .denied
  else if !(is_installed w) then .notInstalled
  else
    match add_client w client_name dns_servers with
    | (r, n) => .handled r n

/-! ## A structural family of well-formed configs

`renderConfig` produces exactly the file layout `wireguard.sh` writes:
an `# ENDPOINT` comment, an interface section, then one block per peer:

  `# BEGIN_PEER n\n[Peer]\nPublicKey = k\nAllowedIPs = i\n# END_PEER n\n`
-/

structure PeerBlock where
  name : Str
  key : Str
  ips : Str

/-- Field sanity for a well-formed block: nonempty fields that contain
neither newlines nor hash signs. -/
def GoodBlock (b : PeerBlock) : Prop :=
  b.name ≠ [] ∧ b.key ≠ [] ∧ b.ips ≠ [] ∧
  (∀ c ∈ b.name, c ≠ '\n' ∧ c ≠ '#') ∧
  (∀ c ∈ b.key, c ≠ '\n' ∧ c ≠ '#') ∧
  (∀ c ∈ b.ips, c ≠ '\n' ∧ c ≠ '#')

instance (b : PeerBlock) : Decidable (GoodBlock b) := by
  unfold GoodBlock
  infer_instance

def endTag (n : Str) : Str := "# END_PEER ".data ++ n ++ ['\n']

def renderBlock (b : PeerBlock) : Str :=
  lit1 ++ b.name ++ lit2 ++ b.key ++ ['\n'] ++ litA ++ b.ips ++ ['\n'] ++
    endTag b.name

def renderBlocks : List PeerBlock → Str
  | [] => []
  | b :: bs => renderBlock b ++ renderBlocks bs

/-- Interface/header sanity: the endpoint value has no newline or hash,
and the interface body has no hash (so it contains no peer marker). -/
def GoodHeader (ep body : Str) : Prop :=
  (∀ c ∈ ep, c ≠ '\n' ∧ c ≠ '#') ∧ (∀ c ∈ body, c ≠ '#')

instance (ep body : Str) : Decidable (GoodHeader ep body) := by
  unfold GoodHeader
  infer_instance

def renderConfig (ep body : Str) (bs : List PeerBlock) : Str :=
  "# ENDPOINT ".data ++ ep ++ ['\n'] ++ body ++ renderBlocks bs

/-! ## Concrete worlds used by the counterexamples and witnesses -/

/-- A config text whose first peer block is malformed (its
`AllowedIPs` line is missing) and whose second block is well-formed. -/
def badContent : Str :=
  ("# BEGIN_PEER alice\n[Peer]\nPublicKey = KA\n" ++
   "# BEGIN_PEER bob\n[Peer]\nPublicKey = KB\nAllowedIPs = 10.7.0.3/32\n").data

/-- A world where the tool reports success, a profile file is found, but
the config file never changes (so a re-parse cannot show the new peer). -/
def exWorld1 : AddWorld :=
  { wg_conf := some [], script_exists := true,
    find_config := fun n => if n = "carol".data then some "/root/carol.conf".data else none,
    dump_rc := 1, dump_out := [],
    tool_rc := 0, tool_stdout := [], tool_stderr := [] }

/-- A world for the quota counterexample: empty config, tool succeeds,
profile file for "bob" is found. -/
def exWorld2 : AddWorld :=
  { wg_conf := some [], script_exists := true,
    find_config := fun n => if n = "bob".data then some "/root/bob.conf".data else none,
    dump_rc := 1, dump_out := [],
    tool_rc := 0, tool_stdout := [], tool_stderr := [] }

/-- A config whose user 1 is authorized but has a stored record with
`can_manage_clients = False` (quota forbids adding clients). -/
def exCfg2 : Config :=
  { owner_id := 10, authorized_users := [10, 1],
    limits_max_clients := 100, limits_rate_limit := 10,
    user_limits := [(1, ⟨some 2, some 10, some true, some true, some false⟩)] }

/-- A config whose user 1 has `max_clients = -1` but
`can_manage_clients = False`. -/
def exCfg7 : Config :=
  { owner_id := 10, authorized_users := [10, 1],
    limits_max_clients := 100, limits_rate_limit := 10,
    user_limits := [(1, ⟨some (-1), some 10, some true, some true, some false⟩)] }

/-- A world where the tool reports success but no profile file can be
located anywhere. -/
def exWorld9 : AddWorld :=
  { wg_conf := some [], script_exists := true,
    find_config := fun _ => none,
    dump_rc := 1, dump_out := [],
    tool_rc := 0, tool_stdout := [], tool_stderr := [] }

/-- A config record with a stored (non-default) record for the owner
(user 10) — used to exercise the owner override. -/
def exCfg4 : Config :=
  { owner_id := 10, authorized_users := [10],
    limits_max_clients := 100, limits_rate_limit := 10,
    user_limits := [(10, ⟨some 3, some 1, some false, some false, some false⟩)] }

/-- A config whose user 1 has `max_clients = -1` and
`can_manage_clients = True`. -/
def exCfgU : Config :=
  { owner_id := 10, authorized_users := [10, 1],
    limits_max_clients := 100, limits_rate_limit := 10,
    user_limits := [(1, ⟨some (-1), some 10, some true, some true, some true⟩)] }

/-- Sample well-formed peer blocks. -/
def exBlocks : List PeerBlock :=
  [⟨"alice".data, "KA".data, "10.7.0.2/32".data⟩,
   ⟨"bob".data, "KB".data, "10.7.0.3/32".data⟩]

def exEp : Str := "203.0.113.5".data

def exBody : Str := "[Interface]\nAddress = 10.7.0.1/24\nListenPort = 51820\n".data

/-! ## Soundness of the matcher -/

theorem isPrefixOf_append_drop {pat t : Str} (h : pat.isPrefixOf t = true) :
    pat ++ t.drop pat.length = t := by
  induction pat generalizing t with
  | nil => simp
  | cons p ps ih =>
    cases t with
    | nil => simp [List.isPrefixOf] at h
    | cons c cs =>
      simp only [List.isPrefixOf, Bool.and_eq_true, beq_iff_eq] at h
      simp [h.1, ih h.2]

theorem searchSplit_sound {pat t pre rest : Str}
    (h : searchSplit pat t = some (pre, rest)) : t = pre ++ pat ++ rest := by
  induction t generalizing pre rest with
  | nil => simp [searchSplit] at h
  | cons c cs ih =>
    by_cases hp : pat.isPrefixOf (c :: cs) = true
    · simp only [searchSplit, hp, if_true, Option.some.injEq,
        Prod.mk.injEq] at h
      obtain ⟨h1, h2⟩ := h
      subst h1
      subst h2
      simpa using (isPrefixOf_append_drop hp).symm
    · simp only [searchSplit, hp, Bool.false_eq_true, if_false] at h
      cases hs : searchSplit pat cs with
      | none => simp [hs] at h
      | some pr =>
        obtain ⟨p, r⟩ := pr
        simp only [hs, Option.some.injEq, Prod.mk.injEq] at h
        obtain ⟨h1, h2⟩ := h
        subst h1
        subst h2
        simp [ih hs]

theorem splitMin1_sound {pat t pre rest : Str}
    (h : splitMin1 pat t = some (pre, rest)) :
    t = pre ++ pat ++ rest ∧ pre ≠ [] := by
  cases t with
  | nil => simp [splitMin1] at h
  | cons c cs =>
    simp only [splitMin1] at h
    cases hs : searchSplit pat cs with
    | none => simp [hs] at h
    | some pr =>
      obtain ⟨p, r⟩ := pr
      simp only [hs, Option.some.injEq, Prod.mk.injEq] at h
      obtain ⟨h1, h2⟩ := h
      subst h1
      subst h2
      simp [searchSplit_sound hs]

theorem takeRun_sound (w : Str) : w = (takeRun w).1 ++ (takeRun w).2 := by
  induction w with
  | nil => simp [takeRun]
  | cons c cs ih =>
    by_cases hc : c = '\n'
    · simp [takeRun, hc]
    · simpa [takeRun, hc] using ih

theorem searchAllowed_sound {v ips rest : Str}
    (h : searchAllowed v = some (ips, rest)) :
    (∃ gap, v = gap ++ litA ++ ips ++ rest) ∧ ips ≠ [] := by
  induction v generalizing ips rest with
  | nil => simp [searchAllowed] at h
  | cons c cs ih =>
    by_cases hp : litA.isPrefixOf (c :: cs) = true
    · simp only [searchAllowed, hp, if_true] at h
      by_cases hrun : (takeRun ((c :: cs).drop litA.length)).1 = []
      · simp only [hrun, if_true] at h
        obtain ⟨⟨gap, hg⟩, hne⟩ := ih h
        exact ⟨⟨c :: gap, by simp [hg]⟩, hne⟩
      · simp only [hrun, if_false, Option.some.injEq, Prod.mk.injEq] at h
        obtain ⟨h1, h2⟩ := h
        subst h1
        subst h2
        refine ⟨⟨[], ?_⟩, hrun⟩
        have ha := isPrefixOf_append_drop hp
        have hb := takeRun_sound ((c :: cs).drop litA.length)
        simp only [List.nil_append]
        rw [← ha, List.append_assoc]
        congr 1
    · simp only [searchAllowed, hp, Bool.false_eq_true, if_false] at h
      obtain ⟨⟨gap, hg⟩, hne⟩ := ih h
      exact ⟨⟨c :: gap, by simp [hg]⟩, hne⟩

theorem matchPeerAt_sound {s : Str} {g : Str × Str × Str} {rest : Str}
    (h : matchPeerAt s = some (g, rest)) :
    ∃ gap, s = lit1 ++ g.1 ++ lit2 ++ g.2.1 ++ ['\n'] ++ gap ++ litA ++
      g.2.2 ++ rest ∧ g.1 ≠ [] ∧ g.2.1 ≠ [] ∧ g.2.2 ≠ [] := by
  by_cases hp : lit1.isPrefixOf s = true
  · simp only [matchPeerAt, hp, if_true] at h
    cases h1 : splitMin1 lit2 (s.drop lit1.length) with
    | none => simp [h1] at h
    | some nu =>
      obtain ⟨name, u⟩ := nu
      simp only [h1] at h
      cases h2 : splitMin1 ['\n'] u with
      | none => simp [h2] at h
      | some kv =>
        obtain ⟨key, v⟩ := kv
        simp only [h2] at h
        cases h3 : searchAllowed v with
        | none => simp [h3] at h
        | some ir =>
          obtain ⟨ips, r⟩ := ir
          simp only [h3, Option.some.injEq, Prod.mk.injEq] at h
          obtain ⟨hg, hr⟩ := h
          obtain ⟨hu, hne1⟩ := splitMin1_sound h1
          obtain ⟨hv, hne2⟩ := splitMin1_sound h2
          obtain ⟨⟨gap, hgap⟩, hne3⟩ := searchAllowed_sound h3
          refine ⟨gap, ?_, ?_, ?_, ?_⟩
          · have hs := isPrefixOf_append_drop hp
            rw [← hs, hu, hv, hgap, ← hg, ← hr]
            simp
          · rw [← hg]; exact hne1
          · rw [← hg]; exact hne2
          · rw [← hg]; exact hne3
  · simp [matchPeerAt, hp] at h

theorem matchPeerAt_length {s : Str} {g : Str × Str × Str} {rest : Str}
    (h : matchPeerAt s = some (g, rest)) : rest.length < s.length := by
  obtain ⟨gap, hs, hne1, hne2, hne3⟩ := matchPeerAt_sound h
  have : lit1.length = 13 := by decide
  rw [hs]
  simp [List.length_append]
  omega

/-! ## Helper lemmas: prefix tests and fuel-invariance -/

theorem isPrefixOf_self_append (l r : Str) : l.isPrefixOf (l ++ r) = true := by
  induction l with
  | nil => simp [List.isPrefixOf]
  | cons a as ih => simp [List.isPrefixOf, ih]

theorem not_isPrefixOf_head {a b : Char} (l s : Str) (h : a ≠ b) :
    (a :: l).isPrefixOf (b :: s) = false := by
  simp [List.isPrefixOf, h]

theorem lit1_eq : lit1 = '#' :: ' ' :: 'B' :: "EGIN_PEER ".data := by decide

theorem lit12_eq : lit12 = '#' :: ' ' :: 'B' :: "EGIN_PEER".data := by decide

theorem lit1_split : lit1 = lit12 ++ [' '] := by decide

theorem matchPeerAt_none_head {c : Char} (cs : Str) (h : c ≠ '#') :
    matchPeerAt (c :: cs) = none := by
  have : lit1.isPrefixOf (c :: cs) = false := by
    rw [lit1_eq]
    exact not_isPrefixOf_head _ _ (fun he => h (by rw [he]))
  simp [matchPeerAt, this]

theorem matchPeerAt_none_hashE (t : Str) :
    matchPeerAt ('#' :: ' ' :: 'E' :: t) = none := by
  have : lit1.isPrefixOf ('#' :: ' ' :: 'E' :: t) = false := by
    rw [lit1_eq]
    simp [List.isPrefixOf]
  simp [matchPeerAt, this]

theorem scanGo_congr (f₁ : Nat) : ∀ {f₂ : Nat} {s : Str},
    s.length ≤ f₁ → s.length ≤ f₂ → scanGo f₁ s = scanGo f₂ s := by
  induction f₁ with
  | zero =>
    intro f₂ s h1 h2
    have : s = [] := List.eq_nil_of_length_eq_zero (by omega)
    subst this
    cases f₂ <;> simp [scanGo]
  | succ f ih =>
    intro f₂ s h1 h2
    cases s with
    | nil => cases f₂ <;> simp [scanGo]
    | cons c cs =>
      cases f₂ with
      | zero => simp at h2
      | succ f₂' =>
        cases hm : matchPeerAt (c :: cs) with
        | none =>
          simp only [scanGo, hm]
          exact ih (by simp at h1 ⊢; omega) (by simp at h2 ⊢; omega)
        | some gr =>
          obtain ⟨g, rest⟩ := gr
          have hlt := matchPeerAt_length hm
          simp only [List.length_cons] at h1 h2 hlt
          have hr1 : rest.length ≤ f := by omega
          have hr2 : rest.length ≤ f₂' := by omega
          simp only [scanGo, hm]
          rw [ih hr1 hr2]

theorem scanPeers_eq_match {s : Str} {g : Str × Str × Str} {rest : Str}
    (h : matchPeerAt s = some (g, rest)) :
    scanPeers s = g :: scanPeers rest := by
  cases s with
  | nil => simp [matchPeerAt, List.isPrefixOf, lit1_eq] at h
  | cons c cs =>
    have hlt := matchPeerAt_length h
    show scanGo (c :: cs).length (c :: cs) = g :: scanPeers rest
    simp only [List.length_cons, scanGo, h]
    exact congrArg _ (scanGo_congr cs.length (by simp at hlt; omega) le_rfl)

theorem scanPeers_cons_none {c : Char} {cs : Str}
    (h : matchPeerAt (c :: cs) = none) : scanPeers (c :: cs) = scanPeers cs := by
  show scanGo (c :: cs).length (c :: cs) = scanPeers cs
  simp only [List.length_cons, scanGo, h]
  rfl

theorem scanPeers_skip_nohash (l : Str) (hl : ∀ c ∈ l, c ≠ '#') (rest : Str) :
    scanPeers (l ++ rest) = scanPeers rest := by
  induction l with
  | nil => rfl
  | cons c cs ih =>
    rw [List.cons_append,
      scanPeers_cons_none (matchPeerAt_none_head _ (hl c (by simp))),
      ih (fun a ha => hl a (by simp [ha]))]

theorem countGo_congr (f₁ : Nat) : ∀ {f₂ : Nat} {s : Str},
    s.length ≤ f₁ → s.length ≤ f₂ → countGo f₁ s = countGo f₂ s := by
  induction f₁ with
  | zero =>
    intro f₂ s h1 h2
    have : s = [] := List.eq_nil_of_length_eq_zero (by omega)
    subst this
    cases f₂ <;> simp [countGo]
  | succ f ih =>
    intro f₂ s h1 h2
    cases s with
    | nil => cases f₂ <;> simp [countGo]
    | cons c cs =>
      cases f₂ with
      | zero => simp at h2
      | succ f₂' =>
        by_cases hm : lit12.isPrefixOf (c :: cs) = true
        · simp only [countGo, hm, if_true]
          have h12 : lit12.length = 12 := by decide
          simp only [List.length_cons] at h1 h2
          have hd1 : ((c :: cs).drop lit12.length).length ≤ f := by
            simp only [List.length_drop, List.length_cons, h12]
            omega
          have hd2 : ((c :: cs).drop lit12.length).length ≤ f₂' := by
            simp only [List.length_drop, List.length_cons, h12]
            omega
          rw [ih hd1 hd2]
        · simp only [countGo, hm, Bool.false_eq_true, if_false]
          exact ih (by simp at h1 ⊢; omega) (by simp at h2 ⊢; omega)

theorem countMarkers_cons_none {c : Char} {cs : Str}
    (h : lit12.isPrefixOf (c :: cs) = false) :
    countMarkers (c :: cs) = countMarkers cs := by
  show countGo (c :: cs).length (c :: cs) = countMarkers cs
  simp only [List.length_cons, countGo, h, Bool.false_eq_true, if_false]
  rfl

theorem countMarkers_cons_hit {c : Char} {cs : Str}
    (h : lit12.isPrefixOf (c :: cs) = true) :
    countMarkers (c :: cs) = 1 + countMarkers ((c :: cs).drop lit12.length) := by
  show countGo (c :: cs).length (c :: cs) = _
  simp only [List.length_cons, countGo, h, if_true]
  congr 1
  have h12 : lit12.length = 12 := by decide
  apply countGo_congr
  · simp [h12]
  · exact le_rfl

theorem countMarkers_lit12 (x : Str) :
    countMarkers (lit12 ++ x) = 1 + countMarkers x := by
  have hc : lit12 ++ x = '#' :: ' ' :: 'B' :: ("EGIN_PEER".data ++ x) := by
    rw [lit12_eq]
    rfl
  have hpre : lit12.isPrefixOf ('#' :: ' ' :: 'B' :: ("EGIN_PEER".data ++ x)) = true := by
    rw [← hc]
    exact isPrefixOf_self_append _ _
  rw [hc, countMarkers_cons_hit hpre, ← hc, List.drop_left]

theorem lit12_none_head {c : Char} (cs : Str) (h : c ≠ '#') :
    lit12.isPrefixOf (c :: cs) = false := by
  rw [lit12_eq]
  exact not_isPrefixOf_head _ _ (fun he => h (by rw [he]))

theorem lit12_none_hashE (t : Str) :
    lit12.isPrefixOf ('#' :: ' ' :: 'E' :: t) = false := by
  rw [lit12_eq]
  simp [List.isPrefixOf]

theorem countMarkers_skip_nohash (l : Str) (hl : ∀ c ∈ l, c ≠ '#')
    (rest : Str) : countMarkers (l ++ rest) = countMarkers rest := by
  induction l with
  | nil => rfl
  | cons c cs ih =>
    rw [List.cons_append,
      countMarkers_cons_none (lit12_none_head _ (hl c (by simp))),
      ih (fun a ha => hl a (by simp [ha]))]

/-! ## Computation of the matcher on well-formed blocks -/

theorem searchSplit_pat_here (p : Char) (ps y : Str) :
    searchSplit (p :: ps) ((p :: ps) ++ y) = some ([], y) := by
  have h1 : (p :: ps).isPrefixOf ((p :: ps) ++ y) = true :=
    isPrefixOf_self_append _ _
  have h2 : ((p :: ps) ++ y).drop (p :: ps).length = y := List.drop_left _ _
  rw [List.cons_append] at h1 h2 ⊢
  simp [searchSplit, h1, h2]

theorem searchSplit_clean (p : Char) (ps pre : Str)
    (hpre : ∀ a ∈ pre, a ≠ p) (y : Str) :
    searchSplit (p :: ps) (pre ++ ((p :: ps) ++ y)) = some (pre, y) := by
  induction pre with
  | nil => simpa using searchSplit_pat_here p ps y
  | cons c cs ih =>
    have hc : (p :: ps).isPrefixOf (c :: (cs ++ ((p :: ps) ++ y))) = false :=
      not_isPrefixOf_head _ _ (fun he => (hpre c (by simp)) he.symm)
    rw [List.cons_append]
    simp only [searchSplit, hc, Bool.false_eq_true, if_false]
    rw [ih (fun a ha => hpre a (by simp [ha]))]

theorem splitMin1_clean (p : Char) (ps : Str) (c : Char) (pre : Str)
    (hpre : ∀ a ∈ pre, a ≠ p) (y : Str) :
    splitMin1 (p :: ps) ((c :: pre) ++ ((p :: ps) ++ y)) = some (c :: pre, y) := by
  rw [List.cons_append]
  simp only [splitMin1]
  rw [searchSplit_clean p ps pre hpre y]

theorem splitMin1_nl (c : Char) (pre : Str)
    (hpre : ∀ a ∈ pre, a ≠ '\n') (y : Str) :
    splitMin1 ['\n'] ((c :: pre) ++ ('\n' :: y)) = some (c :: pre, y) := by
  rw [show ('\n' :: y) = ['\n'] ++ y from rfl]
  exact splitMin1_clean '\n' [] c pre hpre y

theorem takeRun_clean (r : Str) (hr : ∀ c ∈ r, c ≠ '\n') (rest : Str)
    (hrest : rest = [] ∨ rest.head? = some '\n') :
    takeRun (r ++ rest) = (r, rest) := by
  induction r with
  | nil =>
    rcases hrest with h | h
    · subst h
      rfl
    · cases rest with
      | nil => rfl
      | cons c cs =>
        simp only [List.head?_cons, Option.some.injEq] at h
        subst h
        simp [takeRun]
  | cons c cs ih =>
    have hc : c ≠ '\n' := hr c (by simp)
    rw [List.cons_append]
    simp [takeRun, hc, ih (fun a ha => hr a (by simp [ha]))]

theorem searchAllowed_cons (c : Char) (cs : Str) :
    searchAllowed (c :: cs) =
      if litA.isPrefixOf (c :: cs) then
        (if (takeRun ((c :: cs).drop litA.length)).1 = [] then searchAllowed cs
         else some (takeRun ((c :: cs).drop litA.length)))
      else searchAllowed cs := rfl

theorem searchAllowed_clean (ips : Str) (hne : ips ≠ [])
    (hclean : ∀ c ∈ ips, c ≠ '\n') (rest : Str)
    (hrest : rest = [] ∨ rest.head? = some '\n') :
    searchAllowed (litA ++ (ips ++ rest)) = some (ips, rest) := by
  have h3 : takeRun (ips ++ rest) = (ips, rest) :=
    takeRun_clean ips hclean rest hrest
  have hA : litA = 'A' :: "llowedIPs = ".data := by decide
  have hcons : litA ++ (ips ++ rest) =
      'A' :: ("llowedIPs = ".data ++ (ips ++ rest)) := by
    rw [hA]
    rfl
  rw [hcons, searchAllowed_cons, ← hcons, isPrefixOf_self_append,
    List.drop_left, h3]
  simp [hne]

theorem matchPeerAt_lit1 (x : Str) :
    matchPeerAt (lit1 ++ x) =
      match splitMin1 lit2 x with
      | none => none
      | some (name, u) =>
        match splitMin1 ['\n'] u with
        | none => none
        | some (key, v) =>
          match searchAllowed v with
          | none => none
          | some (ips, r) => some ((name, key, ips), r) := by
  have h1 : lit1.isPrefixOf (lit1 ++ x) = true := isPrefixOf_self_append _ _
  have h2 : (lit1 ++ x).drop lit1.length = x := List.drop_left _ _
  simp only [matchPeerAt, h1, if_true, h2]

theorem matchPeerAt_render (b : PeerBlock) (hb : GoodBlock b) (rest : Str) :
    matchPeerAt (renderBlock b ++ rest) =
      some ((b.name, b.key, b.ips), '\n' :: (endTag b.name ++ rest)) := by
  obtain ⟨hn, hk, hi, hnc, hkc, hic⟩ := hb
  obtain ⟨n0, ntl, hn0⟩ := List.exists_cons_of_ne_nil hn
  obtain ⟨k0, ktl, hk0⟩ := List.exists_cons_of_ne_nil hk
  have hlit2 : lit2 = '\n' :: "[Peer]\nPublicKey = ".data := by decide
  have e1 : renderBlock b ++ rest =
      lit1 ++ (b.name ++ (lit2 ++ (b.key ++ ('\n' ::
        (litA ++ (b.ips ++ ('\n' :: (endTag b.name ++ rest)))))))) := by
    simp [renderBlock, List.append_assoc]
  have hpre1 : ∀ a ∈ ntl, a ≠ '\n' := by
    intro a ha
    exact (hnc a (by rw [hn0]; simp [ha])).1
  have hpre2 : ∀ a ∈ ktl, a ≠ '\n' := by
    intro a ha
    exact (hkc a (by rw [hk0]; simp [ha])).1
  have hic1 : ∀ c ∈ b.ips, c ≠ '\n' := fun c hc => (hic c hc).1
  rw [e1, matchPeerAt_lit1, hn0, hk0, hlit2]
  simp only [splitMin1_clean '\n' "[Peer]\nPublicKey = ".data n0 ntl hpre1,
    splitMin1_nl k0 ktl hpre2,
    searchAllowed_clean b.ips hi hic1
      ('\n' :: (endTag (n0 :: ntl) ++ rest)) (Or.inr rfl)]

theorem scanPeers_skip_tail (n : Str) (hn : ∀ c ∈ n, c ≠ '#') (R : Str) :
    scanPeers ('\n' :: (endTag n ++ R)) = scanPeers R := by
  rw [scanPeers_cons_none (matchPeerAt_none_head _ (by decide))]
  have he : endTag n ++ R =
      '#' :: (' ' :: 'E' :: ("ND_PEER ".data ++ (n ++ ('\n' :: R)))) := by
    simp [endTag, List.append_assoc]
  rw [he, scanPeers_cons_none (matchPeerAt_none_hashE _)]
  have he2 : ' ' :: 'E' :: ("ND_PEER ".data ++ (n ++ ('\n' :: R))) =
      ((' ' :: 'E' :: "ND_PEER ".data) ++ (n ++ ('\n' :: R))) := by
    simp
  rw [he2, scanPeers_skip_nohash _ (by decide) _,
    scanPeers_skip_nohash n hn _,
    scanPeers_cons_none (matchPeerAt_none_head _ (by decide))]

theorem scanPeers_renderBlocks (bs : List PeerBlock)
    (h : ∀ b ∈ bs, GoodBlock b) :
    scanPeers (renderBlocks bs) = bs.map (fun b => (b.name, b.key, b.ips)) := by
  induction bs with
  | nil => rfl
  | cons b bs ih =>
    have hb := h b (by simp)
    show scanPeers (renderBlock b ++ renderBlocks bs) = _
    rw [scanPeers_eq_match (matchPeerAt_render b hb (renderBlocks bs)),
      scanPeers_skip_tail b.name (fun c hc => (hb.2.2.2.1 c hc).2) _,
      ih (fun a ha => h a (by simp [ha]))]
    rfl

theorem scanPeers_renderConfig (ep body : Str) (bs : List PeerBlock)
    (hh : GoodHeader ep body) (hbs : ∀ b ∈ bs, GoodBlock b) :
    scanPeers (renderConfig ep body bs) =
      bs.map (fun b => (b.name, b.key, b.ips)) := by
  obtain ⟨hep, hbody⟩ := hh
  have hl : "# ENDPOINT ".data = ('#' :: ' ' :: 'E' :: "NDPOINT ".data) := by
    decide
  have he : renderConfig ep body bs =
      '#' :: (' ' :: 'E' :: ("NDPOINT ".data ++
        (ep ++ ('\n' :: (body ++ renderBlocks bs))))) := by
    simp [renderConfig, hl, List.append_assoc]
  rw [he, scanPeers_cons_none (matchPeerAt_none_hashE _)]
  have he2 : ' ' :: 'E' :: ("NDPOINT ".data ++
      (ep ++ ('\n' :: (body ++ renderBlocks bs)))) =
      (' ' :: 'E' :: "NDPOINT ".data) ++
        (ep ++ ('\n' :: (body ++ renderBlocks bs))) := by
    simp
  rw [he2, scanPeers_skip_nohash _ (by decide) _,
    scanPeers_skip_nohash ep (fun c hc => (hep c hc).2) _,
    scanPeers_cons_none (matchPeerAt_none_head _ (by decide)),
    scanPeers_skip_nohash body hbody _]
  exact scanPeers_renderBlocks bs hbs

theorem countMarkers_skip_tail (n : Str) (hn : ∀ c ∈ n, c ≠ '#') (R : Str) :
    countMarkers ('\n' :: (endTag n ++ R)) = countMarkers R := by
  rw [countMarkers_cons_none (lit12_none_head _ (by decide))]
  have he : endTag n ++ R =
      '#' :: (' ' :: 'E' :: ("ND_PEER ".data ++ (n ++ ('\n' :: R)))) := by
    simp [endTag, List.append_assoc]
  rw [he, countMarkers_cons_none (lit12_none_hashE _)]
  have he2 : ' ' :: 'E' :: ("ND_PEER ".data ++ (n ++ ('\n' :: R))) =
      ((' ' :: 'E' :: "ND_PEER ".data) ++ (n ++ ('\n' :: R))) := by
    simp
  rw [he2, countMarkers_skip_nohash _ (by decide) _,
    countMarkers_skip_nohash n hn _,
    countMarkers_cons_none (lit12_none_head _ (by decide))]

theorem countMarkers_renderBlock (b : PeerBlock) (hb : GoodBlock b) (R : Str) :
    countMarkers (renderBlock b ++ R) = 1 + countMarkers R := by
  obtain ⟨hn, hk, hi, hnc, hkc, hic⟩ := hb
  have hsplit : renderBlock b ++ R = lit12 ++
      (' ' :: (b.name ++ (lit2 ++ (b.key ++ ('\n' ::
        (litA ++ (b.ips ++ ('\n' :: (endTag b.name ++ R))))))))) := by
    simp [renderBlock, lit1_split, List.append_assoc]
  rw [hsplit, countMarkers_lit12,
    countMarkers_cons_none (lit12_none_head _ (by decide)),
    countMarkers_skip_nohash b.name (fun c hc => (hnc c hc).2) _,
    countMarkers_skip_nohash lit2 (by decide) _,
    countMarkers_skip_nohash b.key (fun c hc => (hkc c hc).2) _,
    countMarkers_cons_none (lit12_none_head _ (by decide)),
    countMarkers_skip_nohash litA (by decide) _,
    countMarkers_skip_nohash b.ips (fun c hc => (hic c hc).2) _,
    countMarkers_skip_tail b.name (fun c hc => (hnc c hc).2) _]

theorem countMarkers_renderBlocks (bs : List PeerBlock)
    (h : ∀ b ∈ bs, GoodBlock b) :
    countMarkers (renderBlocks bs) = bs.length := by
  induction bs with
  | nil => rfl
  | cons b bs ih =>
    show countMarkers (renderBlock b ++ renderBlocks bs) = _
    rw [countMarkers_renderBlock b (h b (by simp)) _,
      ih (fun a ha => h a (by simp [ha]))]
    simp
    omega

theorem countMarkers_renderConfig (ep body : Str) (bs : List PeerBlock)
    (hh : GoodHeader ep body) (hbs : ∀ b ∈ bs, GoodBlock b) :
    countMarkers (renderConfig ep body bs) = bs.length := by
  obtain ⟨hep, hbody⟩ := hh
  have hl : "# ENDPOINT ".data = ('#' :: ' ' :: 'E' :: "NDPOINT ".data) := by
    decide
  have he : renderConfig ep body bs =
      '#' :: (' ' :: 'E' :: ("NDPOINT ".data ++
        (ep ++ ('\n' :: (body ++ renderBlocks bs))))) := by
    simp [renderConfig, hl, List.append_assoc]
  rw [he, countMarkers_cons_none (lit12_none_hashE _)]
  have he2 : ' ' :: 'E' :: ("NDPOINT ".data ++
      (ep ++ ('\n' :: (body ++ renderBlocks bs)))) =
      (' ' :: 'E' :: "NDPOINT ".data) ++
        (ep ++ ('\n' :: (body ++ renderBlocks bs))) := by
    simp
  rw [he2, countMarkers_skip_nohash _ (by decide) _,
    countMarkers_skip_nohash ep (fun c hc => (hep c hc).2) _,
    countMarkers_cons_none (lit12_none_head _ (by decide)),
    countMarkers_skip_nohash body hbody _]
  exact countMarkers_renderBlocks bs hbs

/-! ## Status-loop and add-client computation lemmas -/

theorem statusLoop_cons_skip (key L : Str) (rest : List Str)
    (h : ¬ lineHit key L) :
    statusLoop key (L :: rest) = statusLoop key rest := by
  simp only [statusLoop, if_neg h]

theorem statusLoop_cons_hit (key L : Str) (rest : List Str)
    (h : lineHit key L) :
    statusLoop key (L :: rest) = applyLine (pySplit '\t' L) := by
  simp only [statusLoop, if_pos h]

theorem statusLoop_none (key : Str) (lines : List Str)
    (h : ∀ L ∈ lines, ¬ lineHit key L) :
    statusLoop key lines = initStatus := by
  induction lines with
  | nil => rfl
  | cons L rest ih =>
    rw [statusLoop_cons_skip key L rest (h L (by simp))]
    exact ih (fun M hm => h M (by simp [hm]))

theorem statusLoop_skip_pre (key : Str) (pre tail : List Str)
    (h : ∀ M ∈ pre, ¬ lineHit key M) :
    statusLoop key (pre ++ tail) = statusLoop key tail := by
  induction pre with
  | nil => rfl
  | cons L rest ih =>
    rw [List.cons_append, statusLoop_cons_skip key L _ (h L (by simp))]
    exact ih (fun M hm => h M (by simp [hm]))

theorem applyLine_connected (parts : List Str) :
    (applyLine parts).connected = true := by
  unfold applyLine
  (repeat' split) <;> rfl

theorem applyLine_hs_zero (parts : List Str)
    (h : parts.getD 4 [] = "0".data) :
    (applyLine parts).last_handshake = none := by
  unfold applyLine
  simp only [h, ne_eq, not_true_eq_false, if_false]
  (repeat' split) <;> rfl

theorem applyLine_transfer_zero (parts : List Str)
    (h5 : parts.getD 5 [] = "0".data) (h6 : parts.getD 6 [] = "0".data) :
    (applyLine parts).transfer = none := by
  unfold applyLine
  (repeat' split) <;> try rfl
  all_goals simp_all

theorem applyLine_eight (k psk ep ips hs rx tx ka : Str) (hv rv tv : Int)
    (hh : pythonInt hs = some hv) (hr : pythonInt rx = some rv)
    (ht : pythonInt tx = some tv) :
    applyLine [k, psk, ep, ips, hs, rx, tx, ka] =
      ⟨true, if hs = "0".data then none else some hv,
       if rx = "0".data ∧ tx = "0".data then none else some (rv, tv)⟩ := by
  have g4 : ([k, psk, ep, ips, hs, rx, tx, ka] : List Str).getD 4 [] = hs := rfl
  have g5 : ([k, psk, ep, ips, hs, rx, tx, ka] : List Str).getD 5 [] = rx := rfl
  have g6 : ([k, psk, ep, ips, hs, rx, tx, ka] : List Str).getD 6 [] = tx := rfl
  have glen : ([k, psk, ep, ips, hs, rx, tx, ka] : List Str).length = 8 := rfl
  unfold applyLine
  rw [g4, g5, g6, glen]
  by_cases h4 : hs = "0".data
  · simp only [h4, ne_eq, not_true_eq_false, if_false, reduceIte]
    by_cases h56 : rx = "0".data ∧ tx = "0".data
    · simp [h56]
    · have hor := not_and_or.mp h56
      simp [h56, hor, hr, ht]
  · simp only [h4, ne_eq, not_false_eq_true, if_true, hh, reduceIte]
    by_cases h56 : rx = "0".data ∧ tx = "0".data
    · simp [h56]
    · have hor := not_and_or.mp h56
      simp [h56, hor, hr, ht]

/-- Once validation passes (nonempty sanitized name, no existing client
with that name, well-formed DNS list), the outcome of `add_client` is
decided by the tool exit code and the profile-file search alone, and the
external tool is invoked exactly once. -/
theorem add_client_valid (w : AddWorld) (name dns : Str)
    (hval : sanitize_client_name name ≠ [])
    (hnew : ∀ c ∈ list_clients w.wg_conf w.find_config w.dump_rc w.dump_out,
      c.name ≠ sanitize_client_name name)
    (hdns : ((pySplit ',' dns).map pyStrip).all validate_ip_address = true) :
    add_client w name dns =
      (if w.tool_rc ≠ 0 then
        (.failedCreate (errDetail w.tool_stderr w.tool_stdout), 1)
       else
        match w.find_config (sanitize_client_name name) with
        | none => (.createdNoConfigFile, 1)
        | some p => (.created (sanitize_client_name name) p, 1)) := by
  have hany : (list_clients w.wg_conf w.find_config w.dump_rc w.dump_out).any
      (fun c => c.name = sanitize_client_name name) = false := by
    simp only [List.any_eq_false, decide_eq_true_eq]
    exact hnew
  unfold add_client
  rw [if_neg hval, hany, hdns]
  simp

theorem applyLine_six (k a b c hs rx : Str) :
    applyLine [k, a, b, c, hs, rx] =
      ⟨true, if hs = "0".data then none else pythonInt hs, none⟩ := by
  have g4 : ([k, a, b, c, hs, rx] : List Str).getD 4 [] = hs := rfl
  have glen : ([k, a, b, c, hs, rx] : List Str).length = 6 := rfl
  unfold applyLine
  rw [g4, glen]
  by_cases h4 : hs = "0".data
  · simp [h4]
  · simp only [h4, ne_eq, not_false_eq_true, if_true, reduceIte]
    cases hp : pythonInt hs with
    | none => simp [hp]
    | some n => simp [hp]

theorem getClientStatus_zero (key out : Str) :
    getClientStatus key 0 out =
      statusLoop key ((pySplit '\n' (pyStrip out)).drop 1) := rfl

theorem getClientStatus_hit (key out : Str) (pre post : List Str) (L : Str)
    (hdec : (pySplit '\n' (pyStrip out)).drop 1 = pre ++ L :: post)
    (hpre : ∀ M ∈ pre, ¬ lineHit key M) (hL : lineHit key L) :
    getClientStatus key 0 out = applyLine (pySplit '\t' L) := by
  rw [getClientStatus_zero, hdec, statusLoop_skip_pre key pre _ hpre,
    statusLoop_cons_hit key L post hL]

/-! ## Claim theorems -/

/-- C1, counterexample: the external tool exits 0 for `add_client("carol")`,
the (unchanged) config file re-parses to an empty peer list — carol is
absent — yet `add_client` reports plain success because a profile file was
found; no `VerificationError` failure occurs.  The claimed "re-run
ConfigParser and fail with VerificationError" step does not exist in the
code. -/
theorem c1_counterexample :
    exWorld1.tool_rc = 0 ∧
    list_clients exWorld1.wg_conf exWorld1.find_config exWorld1.dump_rc
      exWorld1.dump_out = [] ∧
    add_client exWorld1 "carol".data "8.8.8.8".data =
      (.created "carol".data "/root/carol.conf".data, 1) := by
  refine ⟨rfl, rfl, ?_⟩
  decide

/-- C1, amended: after a zero exit code `add_client` performs no re-parse
of the config file; its outcome is decided solely by the profile-file
search — `created` when `find_config_file` succeeds, otherwise the
"Client created but config file not found" failure.  The config-file
state is not consulted after the tool runs. -/
theorem c1_amended (w : AddWorld) (name dns : Str)
    (hval : sanitize_client_name name ≠ [])
    (hnew : ∀ c ∈ list_clients w.wg_conf w.find_config w.dump_rc w.dump_out,
      c.name ≠ sanitize_client_name name)
    (hdns : ((pySplit ',' dns).map pyStrip).all validate_ip_address = true)
    (hrc : w.tool_rc = 0) :
    add_client w name dns =
      (match w.find_config (sanitize_client_name name) with
       | none => (.createdNoConfigFile : AddResult)
       | some p => .created (sanitize_client_name name) p, 1) := by
  rw [add_client_valid w name dns hval hnew hdns, if_neg (by simp [hrc])]
  cases w.find_config (sanitize_client_name name) <;> rfl

theorem c1_amended_witness :
    add_client exWorld1 "carol".data "8.8.8.8".data =
      (.created "carol".data "/root/carol.conf".data, 1) := by
  have h := c1_amended exWorld1 "carol".data "8.8.8.8".data (by decide)
    (by decide) (by decide) rfl
  exact h.trans (by decide)

/-- C2, counterexample: operator 1 is authorized but their stored quota
record has `can_manage_clients = False`, so `can_user_add_client` is
`false`; the AddClient pipeline nevertheless runs to completion and
invokes the external tool once — no quota check, no `QuotaExceeded`. -/
theorem c2_counterexample :
    exCfg2.can_user_add_client 1 = false ∧
    addClientRequest exCfg2 exWorld2 1 "bob".data "8.8.8.8,8.8.4.4".data =
      .handled (.created "bob".data "/root/bob.conf".data) 1 := by
  constructor
  · decide
  · decide

/-- C2, amended: `can_user_add_client` implements the quota predicate but
is never consulted on the AddClient path; for every authorized operator
whose request passes name/uniqueness/DNS validation the external tool is
invoked exactly once, even when the quota forbids the operation. -/
theorem c2_amended (cfg : Config) (w : AddWorld) (op : Int) (name dns : Str)
    (hauth : cfg.is_authorized op = true)
    (hinst : is_installed w = true)
    (hquota : cfg.can_user_add_client op = false)
    (hval : sanitize_client_name name ≠ [])
    (hnew : ∀ c ∈ list_clients w.wg_conf w.find_config w.dump_rc w.dump_out,
      c.name ≠ sanitize_client_name name)
    (hdns : ((pySplit ',' dns).map pyStrip).all validate_ip_address = true) :
    ∃ r : AddResult, addClientRequest cfg w op name dns = .handled r 1 := by
  have hsnd : (add_client w name dns).2 = 1 := by
    rw [add_client_valid w name dns hval hnew hdns]
    by_cases h : w.tool_rc ≠ 0
    · rw [if_pos h]
    · rw [if_neg h]
      cases w.find_config (sanitize_client_name name) <;> rfl
  refine ⟨(add_client w name dns).1, ?_⟩
  unfold addClientRequest
  rw [hauth, hinst]
  simp only [Bool.not_true, Bool.false_eq_true, if_false]
  rcases hac : add_client w name dns with ⟨r, n⟩
  rw [hac] at hsnd
  simp only at hsnd
  subst hsnd
  simp [hac]

theorem c2_amended_witness :
    ∃ r : AddResult,
      addClientRequest exCfg2 exWorld2 1 "bob".data "8.8.8.8,8.8.4.4".data =
        .handled r 1 :=
  c2_amended exCfg2 exWorld2 1 "bob".data "8.8.8.8,8.8.4.4".data (by decide)
    (by decide) (by decide) (by decide) (by decide) (by decide)

/-- C3, counterexample: a missing/unreadable config file does not raise
anything — `list_clients` returns the plain empty list, observably
identical to a readable config with zero peers.  No `ParseError` (or any
error channel) exists in `list_clients`. -/
theorem c3_counterexample :
    list_clients none (fun _ => none) 0 [] = ([] : List Client) ∧
    list_clients none (fun _ => none) 0 [] =
      list_clients (some []) (fun _ => none) 0 [] :=
  ⟨rfl, rfl⟩

/-- C3, amended: `list_clients` never raises (it is total): a
missing/unreadable file yields the empty list, and on a well-formed
config every peer block is parsed, so the returned list contains exactly
the well-formed entries. -/
theorem c3_amended :
    (∀ (fc : Str → Option Str) (rc : Int) (out : Str),
      list_clients none fc rc out = []) ∧
    (∀ (ep body : Str) (bs : List PeerBlock) (fc : Str → Option Str)
      (rc : Int) (out : Str),
      GoodHeader ep body → (∀ b ∈ bs, GoodBlock b) →
      (list_clients (some (renderConfig ep body bs)) fc rc out).map
        (fun c => (c.name, c.public_key, c.allowed_ips)) =
      bs.map (fun b => (b.name, b.key, b.ips))) := by
  constructor
  · intro fc rc out
    rfl
  · intro ep body bs fc rc out hh hbs
    simp only [list_clients, List.map_map,
      scanPeers_renderConfig ep body bs hh hbs]
    rfl

theorem c3_amended_witness :
    (list_clients (some (renderConfig exEp exBody exBlocks))
      (fun _ => none) 1 []).map
        (fun c => (c.name, c.public_key, c.allowed_ips)) =
      [("alice".data, "KA".data, "10.7.0.2/32".data),
       ("bob".data, "KB".data, "10.7.0.3/32".data)] := by
  have h := c3_amended.2 exEp exBody exBlocks (fun _ => none) 1 []
    (by decide) (by decide)
  exact h.trans (by decide)

/-- C4: the fleet owner's effective quota is always the fixed unlimited
record `{-1, -1, true, true, true}`, for every configuration state (in
particular whatever `user_limits` stores for the owner), and
`set_user_limits` on the owner is a no-op, so setting limits never
changes this. -/
theorem c4_owner_quota (cfg : Config) (u : Int) (l : UserLimits)
    (h : cfg.is_owner u = true) :
    cfg.get_user_limits u = ownerLimits ∧
    cfg.set_user_limits u l = cfg ∧
    (cfg.set_user_limits u l).get_user_limits u = ownerLimits := by
  have h1 : cfg.get_user_limits u = ownerLimits := by
    unfold Config.get_user_limits
    rw [if_pos h]
  have h2 : cfg.set_user_limits u l = cfg := by
    unfold Config.set_user_limits
    rw [if_pos h]
  exact ⟨h1, h2, by rw [h2]; exact h1⟩

theorem c4_owner_quota_witness :
    exCfg4.get_user_limits 10 = ownerLimits ∧
    exCfg4.set_user_limits 10
      ⟨some 0, some 0, some false, some false, some false⟩ = exCfg4 ∧
    (exCfg4.set_user_limits 10
      ⟨some 0, some 0, some false, some false, some false⟩).get_user_limits
        10 = ownerLimits :=
  c4_owner_quota exCfg4 10 _ (by decide)

/-- C5, counterexample: the key "K" appears in a full 8-field status
line, but because the handshake field is the string "0" and both
transfer fields are "0", the merged view reports `connected = true` with
`last_handshake = None` and `transfer = None` — the handshake/transfer
fields are NOT populated from the matching line. -/
theorem c5_counterexample :
    (getClientStatus "K".data 0
      "wg0hdr\nK\tpsk\tep\tips\t0\t0\t0\toff".data).connected = true ∧
    (getClientStatus "K".data 0
      "wg0hdr\nK\tpsk\tep\tips\t0\t0\t0\toff".data).last_handshake = none ∧
    (getClientStatus "K".data 0
      "wg0hdr\nK\tpsk\tep\tips\t0\t0\t0\toff".data).transfer = none := by
  refine ⟨?_, ?_, ?_⟩ <;> decide

/-- C5, amended: a peer whose key appears on no (≥6-field) dump line
reports `connected = false` with both fields unset; a peer whose key
heads a canonical 8-field line reports `connected = true` with
`last_handshake` populated unless the handshake field is "0" and
`transfer` populated unless both transfer fields are "0". -/
theorem c5_amended :
    (∀ (key : Str) (rc : Int) (out : Str),
      (∀ L ∈ (pySplit '\n' (pyStrip out)).drop 1, ¬ lineHit key L) →
      getClientStatus key rc out = ⟨false, none, none⟩) ∧
    (∀ (key out : Str) (pre post : List Str)
      (L psk ep ips hs rx tx ka : Str) (hv rv tv : Int),
      (pySplit '\n' (pyStrip out)).drop 1 = pre ++ L :: post →
      (∀ M ∈ pre, ¬ lineHit key M) →
      pySplit '\t' L = [key, psk, ep, ips, hs, rx, tx, ka] →
      pythonInt hs = some hv → pythonInt rx = some rv →
      pythonInt tx = some tv →
      getClientStatus key 0 out =
        ⟨true, if hs = "0".data then none else some hv,
         if rx = "0".data ∧ tx = "0".data then none else some (rv, tv)⟩) := by
  constructor
  · intro key rc out h
    unfold getClientStatus
    by_cases hrc : (rc == 0) = true
    · rw [if_pos hrc]
      exact statusLoop_none key _ h
    · rw [if_neg hrc]
      rfl
  · intro key out pre post L psk ep ips hs rx tx ka hv rv tv hdec hpre hL
      hh hr ht
    have hhit : lineHit key L := by
      constructor
      · rw [hL]
        simp
      · rw [hL]
        rfl
    rw [getClientStatus_hit key out pre post L hdec hpre hhit, hL,
      applyLine_eight key psk ep ips hs rx tx ka hv rv tv hh hr ht]

theorem c5_amended_witness :
    getClientStatus "K".data 0 "wg0hdr\nnoise".data = ⟨false, none, none⟩ ∧
    getClientStatus "K".data 0
        "wg0hdr\nK\tpsk\tep\tips\t7\t3\t4\toff".data =
      ⟨true, some 7, some (3, 4)⟩ := by
  constructor
  · exact c5_amended.1 "K".data 0 "wg0hdr\nnoise".data (by decide)
  · have h := c5_amended.2 "K".data "wg0hdr\nK\tpsk\tep\tips\t7\t3\t4\toff".data
      [] [] "K\tpsk\tep\tips\t7\t3\t4\toff".data
      "psk".data "ep".data "ips".data "7".data "3".data "4".data "off".data
      7 3 4 (by decide) (by decide) (by decide) (by decide) (by decide)
      (by decide)
    exact h.trans (by decide)

/-- C6, counterexample: in `badContent` the first peer block ("alice")
is malformed — it has no `AllowedIPs` line — yet it is NOT omitted: the
lazy `.*?` of the `re.DOTALL` pattern lets it absorb the following
well-formed block, producing the single parsed entry
`("alice", "KA", "10.7.0.3/32")` (bob's address!) while the well-formed
"bob" block is the one that disappears.  The marker count is 2 against a
parsed-list length of 1. -/
theorem c6_counterexample :
    countMarkers badContent = 2 ∧
    scanPeers badContent = [("alice".data, "KA".data, "10.7.0.3/32".data)] := by
  constructor
  · decide
  · decide

/-- C6, amended: for every well-formed config (endpoint comment,
interface body, then well-formed peer blocks) the parsed peer-list
length equals the number N of blocks and equals the independently
counted marker count.  With a malformed block the marker count can
strictly exceed the parsed length (2 > 1 in the exhibited config), but
the malformed block itself need not be omitted — it can swallow the
following well-formed block, which is then the omitted one. -/
theorem c6_amended :
    (∀ (ep body : Str) (bs : List PeerBlock),
      GoodHeader ep body → (∀ b ∈ bs, GoodBlock b) →
      (scanPeers (renderConfig ep body bs)).length = bs.length ∧
      countMarkers (renderConfig ep body bs) = bs.length) ∧
    (countMarkers badContent = 2 ∧ (scanPeers badContent).length = 1 ∧
      (scanPeers badContent).map (fun g => g.1) = ["alice".data]) := by
  constructor
  · intro ep body bs hh hbs
    constructor
    · rw [scanPeers_renderConfig ep body bs hh hbs, List.length_map]
    · exact countMarkers_renderConfig ep body bs hh hbs
  · refine ⟨by decide, by decide, by decide⟩

theorem c6_amended_witness :
    (scanPeers (renderConfig exEp exBody exBlocks)).length = 2 ∧
    countMarkers (renderConfig exEp exBody exBlocks) = 2 :=
  c6_amended.1 exEp exBody exBlocks (by decide) (by decide)

/-- C7, counterexample: user 1 has a stored record with
`max_clients = -1` but `can_manage_clients = False`; `CanAddClient`
rejects, so "with maxClients = -1 it always accepts regardless of owned
count" is false as stated. -/
theorem c7_counterexample :
    (exCfg7.get_user_limits 1).max_clients = some (-1) ∧
    exCfg7.can_user_add_client 1 = false := by
  constructor
  · decide
  · decide

/-- C7, amended: `can_user_add_client` equals
`CanPerform(manage_clients) AND (maxClients == -1 OR ownedCount <
maxClients)` (with `ownedCount` the placeholder `get_user_client_count`
and the stored-record default 100); with `maxClients = 0` it always
rejects; with `maxClients = -1` it always accepts provided the operator
may manage clients. -/
theorem c7_amended (cfg : Config) (u : Int) :
    cfg.can_user_add_client u =
      (cfg.can_user_perform_action u "manage_clients" &&
        (((cfg.get_user_limits u).max_clients.getD 100 == -1) ||
          decide (cfg.get_user_client_count u <
            (cfg.get_user_limits u).max_clients.getD 100))) ∧
    ((cfg.get_user_limits u).max_clients = some 0 →
      cfg.can_user_add_client u = false) ∧
    ((cfg.get_user_limits u).max_clients = some (-1) →
      cfg.can_user_perform_action u "manage_clients" = true →
      cfg.can_user_add_client u = true) := by
  refine ⟨?_, ?_, ?_⟩
  · by_cases hp : cfg.can_user_perform_action u "manage_clients" = true
    · simp only [Config.can_user_add_client, hp, Bool.not_true,
        Bool.false_eq_true, if_false, Bool.true_and]
      by_cases hm : ((cfg.get_user_limits u).max_clients.getD 100 == -1) = true
      · simp [hm]
      · simp only [Bool.not_eq_true] at hm
        simp [hm]
    · simp only [Bool.not_eq_true] at hp
      simp [Config.can_user_add_client, hp]
  · intro h0
    by_cases hp : cfg.can_user_perform_action u "manage_clients" = true
    · simp [Config.can_user_add_client, Config.get_user_client_count, hp, h0]
    · simp only [Bool.not_eq_true] at hp
      simp [Config.can_user_add_client, hp]
  · intro hm hp
    simp [Config.can_user_add_client, hp, hm]

theorem c7_amended_witness :
    exCfgU.can_user_add_client 1 = true ∧
    exCfgU.can_user_add_client 1 =
      (exCfgU.can_user_perform_action 1 "manage_clients" &&
        (((exCfgU.get_user_limits 1).max_clients.getD 100 == -1) ||
          decide (exCfgU.get_user_client_count 1 <
            (exCfgU.get_user_limits 1).max_clients.getD 100))) :=
  ⟨(c7_amended exCfgU 1).2.2 (by decide) (by decide), (c7_amended exCfgU 1).1⟩

/-- C8, counterexample: a 7-field line (not the claimed 8) whose first
field matches the key is processed, not skipped: it alone determines the
peer's merged status.  The code's actual guard is `len(parts) >= 6`. -/
theorem c8_counterexample :
    (pySplit '\t' "K\ta\tb\tc\t5\t1\t2".data).length = 7 ∧
    getClientStatus "K".data 0 "wg0hdr\nK\ta\tb\tc\t5\t1\t2".data =
      ⟨true, some 5, some (1, 2)⟩ ∧
    getClientStatus "K".data 0 "wg0hdr\nK\ta\tb\tc\t5\t1\t2".data ≠
      initStatus := by
  refine ⟨by decide, by decide, by decide⟩

/-- C8, amended: the first output line is skipped (`[1:]`); a line with
fewer than 6 tab-separated fields, or whose first field differs from the
key, is skipped without raising and without affecting the result; a
matching line with exactly 6 fields is processed — the handshake field
is read, then the `parts[6]` access raises an `IndexError` that the
blanket handler swallows, leaving `connected = true` and `transfer`
unset. -/
theorem c8_amended :
    (∀ (key L : Str) (rest : List Str),
      (pySplit '\t' L).length < 6 ∨ (pySplit '\t' L).getD 0 [] ≠ key →
      statusLoop key (L :: rest) = statusLoop key rest) ∧
    (∀ (key : Str) (rc : Int) (out : Str),
      getClientStatus key rc out =
        if rc == 0 then
          statusLoop key ((pySplit '\n' (pyStrip out)).drop 1)
        else initStatus) ∧
    (∀ (key L : Str) (rest : List Str) (a b c hs rx : Str),
      pySplit '\t' L = [key, a, b, c, hs, rx] →
      statusLoop key (L :: rest) =
        ⟨true, if hs = "0".data then none else pythonInt hs, none⟩) := by
  refine ⟨?_, ?_, ?_⟩
  · intro key L rest h
    apply statusLoop_cons_skip
    intro hh
    rcases h with h | h
    · exact absurd hh.1 (by omega)
    · exact h hh.2
  · intro key rc out
    rfl
  · intro key L rest a b c hs rx hL
    have hhit : lineHit key L := by
      constructor
      · rw [hL]
        simp
      · rw [hL]
        rfl
    rw [statusLoop_cons_hit key L rest hhit, hL, applyLine_six]

theorem c8_amended_witness :
    statusLoop "K".data ["short".data] = statusLoop "K".data [] ∧
    getClientStatus "K".data 7 "x".data =
      (if (7 : Int) == 0 then
        statusLoop "K".data ((pySplit '\n' (pyStrip "x".data)).drop 1)
       else initStatus) ∧
    statusLoop "K".data ["K\ta\tb\tc\t5\t0".data] = ⟨true, some 5, none⟩ := by
  refine ⟨c8_amended.1 "K".data "short".data [] (by decide),
    c8_amended.2.1 "K".data 7 "x".data, ?_⟩
  have h := c8_amended.2.2 "K".data "K\ta\tb\tc\t5\t0".data []
    "a".data "b".data "c".data "5".data "0".data (by decide)
  exact h.trans (by decide)

/-- C9, counterexample: the tool exits 0 but no profile file is found in
any search directory; `add_client` returns the
"Client created but config file not found" outcome whose success flag —
the first component of the returned tuple — is `False`, i.e. the request
is reported through the same failure channel as every hard failure, not
as a partial success. -/
theorem c9_counterexample :
    add_client exWorld9 "dave".data "8.8.8.8".data =
      (.createdNoConfigFile, 1) ∧
    AddResult.success .createdNoConfigFile = false := by
  refine ⟨by decide, rfl⟩

/-- C9, amended: when the tool exits 0 and no profile file can be
located, `add_client` reports a failure (`success = False`) — the same
hard-failure channel as other errors — though with the distinct
"Client created but config file not found" outcome, which is not the
tool-failure (`ScriptExecutionError`-style) outcome. -/
theorem c9_amended (w : AddWorld) (name dns : Str)
    (hval : sanitize_client_name name ≠ [])
    (hnew : ∀ c ∈ list_clients w.wg_conf w.find_config w.dump_rc w.dump_out,
      c.name ≠ sanitize_client_name name)
    (hdns : ((pySplit ',' dns).map pyStrip).all validate_ip_address = true)
    (hrc : w.tool_rc = 0)
    (hfind : w.find_config (sanitize_client_name name) = none) :
    add_client w name dns = (.createdNoConfigFile, 1) ∧
    AddResult.success (add_client w name dns).1 = false ∧
    ∀ d : Str, (add_client w name dns).1 ≠ .failedCreate d := by
  have h := add_client_valid w name dns hval hnew hdns
  rw [if_neg (by simp [hrc]), hfind] at h
  refine ⟨h, by rw [h]; rfl, ?_⟩
  intro d
  rw [h]
  simp

theorem c9_amended_witness :
    add_client exWorld9 "dave".data "8.8.8.8".data =
      (.createdNoConfigFile, 1) ∧
    AddResult.success (add_client exWorld9 "dave".data "8.8.8.8".data).1 =
      false ∧
    ∀ d : Str,
      (add_client exWorld9 "dave".data "8.8.8.8".data).1 ≠ .failedCreate d :=
  c9_amended exWorld9 "dave".data "8.8.8.8".data (by decide) (by decide)
    (by decide) rfl rfl

/-- C10: for a peer whose key matches a (≥6-field) live-status line, the
merged view reports `connected = true`, but `last_handshake` stays unset
when the handshake-epoch field is the string "0" and `transfer` stays
unset when both the rx and tx fields are "0" — so `connected = true`
coexists with `last_handshake = None` and `transfer = None`. -/
theorem c10_zero_sentinels (key out : Str) (pre post : List Str) (L : Str)
    (hdec : (pySplit '\n' (pyStrip out)).drop 1 = pre ++ L :: post)
    (hpre : ∀ M ∈ pre, ¬ lineHit key M)
    (hL : lineHit key L) :
    (getClientStatus key 0 out).connected = true ∧
    ((pySplit '\t' L).getD 4 [] = "0".data →
      (getClientStatus key 0 out).last_handshake = none) ∧
    ((pySplit '\t' L).getD 5 [] = "0".data →
      (pySplit '\t' L).getD 6 [] = "0".data →
      (getClientStatus key 0 out).transfer = none) := by
  rw [getClientStatus_hit key out pre post L hdec hpre hL]
  exact ⟨applyLine_connected _,
    fun h4 => applyLine_hs_zero _ h4,
    fun h5 h6 => applyLine_transfer_zero _ h5 h6⟩

theorem c10_zero_sentinels_witness :
    (getClientStatus "K".data 0
      "wg0hdr\nK\tpsk\tep\tips\t0\t0\t0\t25".data).connected = true ∧
    (getClientStatus "K".data 0
      "wg0hdr\nK\tpsk\tep\tips\t0\t0\t0\t25".data).last_handshake = none ∧
    (getClientStatus "K".data 0
      "wg0hdr\nK\tpsk\tep\tips\t0\t0\t0\t25".data).transfer = none := by
  have h := c10_zero_sentinels "K".data
    "wg0hdr\nK\tpsk\tep\tips\t0\t0\t0\t25".data [] []
    "K\tpsk\tep\tips\t0\t0\t0\t25".data (by decide) (by decide) (by decide)
  exact ⟨h.1, h.2.1 (by decide), h.2.2 (by decide) (by decide)⟩
